import Mathlib

/-!
Shallow embedding of `src/editor/core/draw/Draw.ts` (class `Draw`) of the
zjx-git/canvas-editor repository, together with theorems checking the
natural-language specification's claims against it.

Modelling conventions:
* JavaScript numbers that can only ever hold finite values in the code paths
  under study are modelled as rationals (`ℚ`).
* The one arithmetic site that can produce `NaN` (the image-shrink height
  update `element.height! * surplusWidth / element.width`, an unguarded 0/0
  when the surplus is zero) is modelled with `JSNum`, a rational extended with
  a `nan` point, together with the JS propagation rules for `+`, `-`, `<`.
* The glyph-measurement collaborator (`ctx.measureText`) is external to the
  core (spec §1, §2); its output for each text element is carried on the
  element itself as `measuredWidth`/`measuredAscent`/`measuredDescent`.
* DOM/canvas painting calls (background, margin, underline, strikeout,
  highlight, text/image particles, search) are external collaborators with no
  effect on the state modelled here; the observable effects kept are the row
  list, the element list (mutated in place by layout), the position list, the
  set of indices at which the selection rectangle is painted, the cursor
  position, and the history stack.
* `deepClone` is value copy; Lean lists are values, so a snapshot is simply
  the list as it stands at snapshot time.
-/

namespace CanvasEditor

/-- A JavaScript number as used by the layout arithmetic of `Draw.ts`: either
a finite value (idealised as a rational) or `NaN`. Infinities are omitted:
the only division in the file divides a product `q * s` by `s`, whose
numerator vanishes whenever the denominator does, so `NaN` is the only
non-finite value reachable from finite inputs. -/
inductive JSNum where
  | num (q : ℚ)
  | nan
  deriving DecidableEq, Repr

/-- JS addition restricted to the reachable values: `NaN` propagates. -/
def jsAdd : JSNum → JSNum → JSNum
  | .num a, .num b => .num (a + b)
  | _, _ => .nan

/-- JS subtraction: `NaN` propagates. -/
def jsSub : JSNum → JSNum → JSNum
  | .num a, .num b => .num (a - b)
  | _, _ => .nan

/-- JS `<` as a boolean: any comparison with `NaN` is `false`. -/
def jsLt : JSNum → JSNum → Bool
  | .num a, .num b => decide (a < b)
  | _, _ => false

/-- The height update of the image-shrink branch, Draw.ts line 197:
`element.height = element.height! * surplusWidth / element.width`, evaluated
left-to-right *after* line 196 has assigned `element.width = surplusWidth`.
With `s ≠ 0` this is the rational `q * s / s`; with `s = 0` the numerator is
`q * 0 = 0` and JS evaluates `0 / 0` to `NaN`. -/
def jsShrink : JSNum → ℚ → JSNum
  | .num q, s => if s = 0 then JSNum.nan else JSNum.num (q * s / s)
  | .nan, _ => JSNum.nan

/-- `ElementType` from `dataset/enum/Element`: the branch in Draw.ts only
distinguishes `IMAGE` from everything else, which is treated as text. -/
inductive ElementType where
  | text
  | image
  deriving DecidableEq, Repr

/-- `RowFlex` from `dataset/enum/Row`: left / center / right alignment. -/
inductive RowFlex where
  | left
  | center
  | right
  deriving DecidableEq, Repr

/-- `ZERO` from `dataset/constant/Common`: the zero-width-space character used
as the explicit line-break marker. -/
def ZERO : String := "\u200B"

/-- The CSS font string assembled by `Draw._getFont` (line 156-159),
represented by its components instead of the formatted string. -/
structure CtxFont where
  italic : Bool
  bold : Bool
  size : ℚ
  font : String
  deriving DecidableEq, Repr

/-- JS `a || d` for an optional numeric field: `undefined` and `0` are falsy. -/
def orQ : Option ℚ → ℚ → ℚ
  | none, d => d
  | some q, d => if q = 0 then d else q

/-- JS `a || d` for an optional string field: `undefined` and `""` are falsy. -/
def orStr : Option String → String → String
  | none, d => d
  | some s, d => if s = "" then d else s

/-- `IElement`: one content element of the flat sequence. Style and payload
fields are those read by `Draw.ts`; `measuredWidth`/`measuredAscent`/
`measuredDescent` carry the external `measureText` result for the element
(`width`, `actualBoundingBoxAscent`, `actualBoundingBoxDescent`). -/
structure IElement where
  type : ElementType := ElementType.text
  value : String := ""
  width : ℚ := 0
  height : JSNum := JSNum.num 0
  size : Option ℚ := none
  font : Option String := none
  bold : Bool := false
  italic : Bool := false
  underline : Bool := false
  strikeout : Bool := false
  highlight : Option String := none
  rowFlex : Option RowFlex := none
  rowMargin : Option ℚ := none
  measuredWidth : ℚ := 0
  measuredAscent : ℚ := 0
  measuredDescent : ℚ := 0
  deriving DecidableEq, Repr

/-- The fully-resolved `Required<IEditorOption>` plus the two canvas geometry
inputs read by `Draw.ts`: `canvasRectWidth` is
`canvas.getBoundingClientRect().width` (used by `_computeRowList`) and
`canvasWidth` is `canvas.width` (used by the row-flex offset in `render`);
`initialCtxFont` is the ambient `ctx.font` at the `ctx.save()` of the layout
pass. `margins` is the `[top, right, bottom, left]` array. -/
structure EditorOptions where
  marginTop : ℚ
  marginRight : ℚ
  marginBottom : ℚ
  marginLeft : ℚ
  defaultSize : ℚ
  defaultFont : String
  defaultRowMargin : ℚ
  defaultBasicRowMarginHeight : ℚ
  canvasRectWidth : ℚ
  canvasWidth : ℚ
  initialCtxFont : CtxFont
  deriving DecidableEq, Repr

/-- `Draw._getFont` (lines 156-159): italic/bold flags, `size || defaultSize`,
`font || defaultFont`. -/
def getFont (o : EditorOptions) (el : IElement) : CtxFont :=
  { italic := el.italic
    bold := el.bold
    size := orQ el.size o.defaultSize
    font := orStr el.font o.defaultFont }

/-- The available inner width of `_computeRowList` (lines 166-168):
`rightTopPoint[0] - leftTopPoint[0] = (width - margins[1]) - margins[3]`. -/
def innerWidth (o : EditorOptions) : ℚ :=
  (o.canvasRectWidth - o.marginRight) - o.marginLeft

/-- `IElementMetrics`: resolved metrics of one element (lines 184-209). -/
structure IElementMetrics where
  width : ℚ
  height : JSNum
  boundingBoxAscent : ℚ
  boundingBoxDescent : JSNum
  deriving DecidableEq, Repr

/-- `IRowElement`: the element spread-copied together with its metrics and
the current `ctx.font` (lines 213-217). -/
structure IRowElement where
  element : IElement
  metrics : IElementMetrics
  style : CtxFont
  deriving DecidableEq, Repr

/-- `IRow`: one computed layout row. -/
structure IRow where
  width : ℚ
  height : JSNum
  ascent : JSNum
  elementList : List IRowElement
  rowFlex : Option RowFlex
  deriving DecidableEq, Repr

/-- Result of resolving one element's metrics (lines 184-209): the metrics,
the element (possibly width/height-mutated by the image overflow branch), and
the `ctx.font` after the iteration (set only in the text branch, line 204). -/
structure Resolved where
  metrics : IElementMetrics
  element : IElement
  ctxFont : CtxFont
  deriving DecidableEq, Repr

/-- Lines 184-209 of `_computeRowList`. Image branch (190-201):
`metrics.height` is the element height *before* the overflow shrink; if
`curRow.width + element.width! > innerWidth` the element's own `width` is set
to the surplus `innerWidth - curRow.width` and its `height` is recomputed by
`jsShrink`; `metrics.width` and `metrics.boundingBoxDescent` then read the
mutated fields. Text branch (202-209): metrics come from the measured font
metrics, with the `ZERO` marker's ascent forced to `defaultSize`, and
`ctx.font` is set to the element's font. -/
def resolveElement (o : EditorOptions) (iw : ℚ) (el : IElement)
    (fnt : CtxFont) (curRow : IRow) : Resolved :=
  if el.type = ElementType.image then
    let el' :=
      if curRow.width + el.width > iw then
        let surplus := iw - curRow.width
        { el with width := surplus, height := jsShrink el.height surplus }
      else el
    { metrics :=
        { width := el'.width
          height := el.height
          boundingBoxAscent := 0
          boundingBoxDescent := el'.height }
      element := el'
      ctxFont := fnt }
  else
    { metrics :=
        { width := el.measuredWidth
          height := JSNum.num (orQ el.size o.defaultSize)
          boundingBoxAscent := if el.value = ZERO then o.defaultSize else el.measuredAscent
          boundingBoxDescent := JSNum.num el.measuredDescent }
      element := el
      ctxFont := getFont o el }

/-- Result of one iteration of the `_computeRowList` loop: the (possibly
mutated) element, its metrics, the new current row, the row pushed to the
finished list when a row break occurred (`some` of the previous current row),
and the `ctx.font` after the iteration. -/
structure LayoutStepResult where
  element : IElement
  metrics : IElementMetrics
  curRow : IRow
  pushedRow : Option IRow
  ctxFont : CtxFont
  deriving DecidableEq, Repr

/-- One iteration of the loop of `_computeRowList` (lines 180-239) on element
index `i`. Row margin is `defaultBasicRowMarginHeight * (element.rowMargin ||
defaultRowMargin)` (line 183). A new row is started (lines 219-226) exactly
when `curRow.width + metrics.width > innerWidth` or `i ≠ 0` and the element
is the `ZERO` line-break marker; the new row takes its `rowFlex` from the row
element itself. Otherwise (lines 227-238) the element accumulates onto the
current row, growing its height (and ascent — for images the element height
stands in for the ascent) when the element is taller. -/
def layoutStep (o : EditorOptions) (iw : ℚ) (i : ℕ) (el : IElement)
    (fnt : CtxFont) (curRow : IRow) : LayoutStepResult :=
  let rowMargin := o.defaultBasicRowMarginHeight * orQ el.rowMargin o.defaultRowMargin
  let r := resolveElement o iw el fnt curRow
  let ascent := r.metrics.boundingBoxAscent + rowMargin
  let descent := jsAdd r.metrics.boundingBoxDescent (JSNum.num rowMargin)
  let height := jsAdd (JSNum.num ascent) descent
  let rowElement : IRowElement :=
    { element := r.element, metrics := r.metrics, style := r.ctxFont }
  if curRow.width + r.metrics.width > iw ∨ (i ≠ 0 ∧ el.value = ZERO) then
    { element := r.element
      metrics := r.metrics
      curRow :=
        { width := r.metrics.width
          height := height
          elementList := [rowElement]
          ascent := JSNum.num ascent
          rowFlex := rowElement.element.rowFlex }
      pushedRow := some curRow
      ctxFont := r.ctxFont }
  else
    { element := r.element
      metrics := r.metrics
      curRow :=
        { curRow with
          width := curRow.width + r.metrics.width
          height := if jsLt curRow.height height then height else curRow.height
          ascent :=
            if jsLt curRow.height height then
              if el.type = ElementType.image then r.element.height else JSNum.num ascent
            else curRow.ascent
          elementList := curRow.elementList ++ [rowElement] }
      pushedRow := none
      ctxFont := r.ctxFont }

/-- Prepend a pushed row, if any, onto the finished rows. -/
def pushDone (p : Option IRow) (doneRows : List IRow) : List IRow :=
  match p with
  | some r => r :: doneRows
  | none => doneRows

/-- The loop of `_computeRowList` over the remaining elements. `curRow` is
the last entry of the growing row array, `doneRows` the earlier entries in
reverse order. Returns the processed (possibly mutated) elements in order
together with the final current row and finished rows. -/
def layoutLoop (o : EditorOptions) (iw : ℚ) :
    List IElement → ℕ → CtxFont → IRow → List IRow →
    List IElement × IRow × List IRow
  | [], _, _, curRow, doneRows => ([], curRow, doneRows)
  | el :: rest, i, fnt, curRow, doneRows =>
    let s := layoutStep o iw i el fnt curRow
    let t := layoutLoop o iw rest (i + 1) s.ctxFont s.curRow (pushDone s.pushedRow doneRows)
    (s.element :: t.1, t.2)

/-- `Draw._computeRowList` (lines 161-242): an empty element list yields an
empty row list; otherwise one initial row is seeded whose `rowFlex` is read
from `elementList?.[1]?.rowFlex` (line 176) and the loop runs from index 0.
Returns the element list after in-place mutation and the computed rows. -/
def computeRowList (o : EditorOptions) (elementList : List IElement) :
    List IElement × List IRow :=
  match elementList with
  | [] => ([], [])
  | _ =>
    let initRow : IRow :=
      { width := 0
        height := JSNum.num 0
        ascent := JSNum.num 0
        elementList := []
        rowFlex := (elementList.get? 1).bind fun e => e.rowFlex }
    let t := layoutLoop o (innerWidth o) elementList 0 o.initialCtxFont initRow []
    (t.1, (t.2.1 :: t.2.2).reverse)

/-- The selection range held by the `RangeManager` collaborator. -/
structure IRange where
  startIndex : ℕ
  endIndex : ℕ
  deriving DecidableEq, Repr

/-- The four corner coordinates of a position entry (lines 304-309); the
vertical coordinate is a `JSNum` because row heights can be `NaN`. -/
structure Coordinate where
  leftTop : ℚ × JSNum
  leftBottom : ℚ × JSNum
  rightTop : ℚ × JSNum
  rightBottom : ℚ × JSNum
  deriving DecidableEq, Repr

/-- `IElementPosition`: one entry of the position list (lines 296-310). -/
structure IElementPosition where
  index : ℕ
  value : String
  rowNo : ℕ
  metrics : IElementMetrics
  ascent : JSNum
  lineHeight : JSNum
  isLastLetter : Bool
  coordinate : Coordinate
  deriving DecidableEq, Repr

/-- The inner loop of `render` over one row's elements (lines 290-338),
starting at pen position `(x, y)` and global element counter `index`.
Returns the position entries appended and the list of indices at which the
selection rectangle is painted: `range.render` is invoked exactly when
`startIndex ≠ endIndex ∧ startIndex < index ∧ index ≤ endIndex`
(lines 332-335). -/
def drawRowElements (rg : IRange) (rowNo : ℕ) (curRow : IRow) :
    List IRowElement → ℚ → JSNum → ℕ → List IElementPosition × List ℕ
  | [], _, _, _ => ([], [])
  | el :: rest, x, y, index =>
    let metrics := el.metrics
    let offsetY :=
      if el.element.type = ElementType.image then jsSub curRow.ascent el.element.height
      else curRow.ascent
    let pos : IElementPosition :=
      { index := index
        value := el.element.value
        rowNo := rowNo
        metrics := metrics
        ascent := offsetY
        lineHeight := curRow.height
        isLastLetter := rest.isEmpty
        coordinate :=
          { leftTop := (x, y)
            leftBottom := (x, jsAdd y curRow.height)
            rightTop := (x + metrics.width, y)
            rightBottom := (x + metrics.width, jsAdd y curRow.height) } }
    let t := drawRowElements rg rowNo curRow rest (x + metrics.width) y (index + 1)
    let sel :=
      if rg.startIndex ≠ rg.endIndex ∧ rg.startIndex < index ∧ index ≤ rg.endIndex then
        index :: t.2
      else t.2
    (pos :: t.1, sel)

/-- The row-flex horizontal offset of `render` (lines 282-289): none for an
unset or `LEFT` flex, half the unused inner width for `CENTER`, the full
unused inner width otherwise; the inner width here is measured against
`canvas.width`. -/
def rowOffsetX (o : EditorOptions) (row : IRow) : ℚ :=
  match row.rowFlex with
  | some RowFlex.center => (o.canvasWidth - o.marginRight - o.marginLeft - row.width) / 2
  | some RowFlex.right => o.canvasWidth - o.marginRight - o.marginLeft - row.width
  | _ => 0

/-- The outer loop of `render` over the rows (lines 279-342): each row starts
at `x = margins[3] + rowOffsetX` and `y` advances by the row height. -/
def drawRows (o : EditorOptions) (rg : IRange) :
    List IRow → ℕ → JSNum → ℕ → List IElementPosition × List ℕ
  | [], _, _, _ => ([], [])
  | row :: rest, rowNo, y, index =>
    let x := o.marginLeft + rowOffsetX o row
    let t := drawRowElements rg rowNo row row.elementList x y index
    let t' := drawRows o rg rest (rowNo + 1) (jsAdd y row.height)
      (index + row.elementList.length)
    (t.1 ++ t'.1, t.2 ++ t'.2)

/-- The state captured by the history closure of `render` (lines 356-365): the
range at capture time, a value copy (`deepClone`) of `this.elementList` at
capture time, and the captured caret index. -/
structure HistoryRecord where
  startIndex : ℕ
  endIndex : ℕ
  elementList : List IElement
  curIndex : ℤ
  deriving DecidableEq, Repr

/-- The mutable state of a `Draw` instance that the claims observe. -/
structure DrawState where
  elementList : List IElement
  rowList : List IRow
  positionList : List IElementPosition
  range : IRange
  cursorPosition : Option IElementPosition
  historyStack : List HistoryRecord
  deriving DecidableEq, Repr

/-- `IDrawOption`, the `render` payload with its defaults (lines 245-250). -/
structure IDrawOption where
  curIndex : Option ℤ := none
  isSubmitHistory : Bool := true
  isSetCursor : Bool := true
  isComputeRowList : Bool := true
  deriving DecidableEq, Repr

/-- The result of `render`: the post-render state plus the list of element
indices at which the selection rectangle was painted. -/
structure RenderResult where
  state : DrawState
  selectionPaints : List ℕ
  deriving DecidableEq, Repr

/-- JS array indexing with a possibly negative index: `positionList[curIndex]`
is `undefined` out of bounds (line 352 falls back to `null`). -/
def listAtZ (l : List IElementPosition) (i : ℤ) : Option IElementPosition :=
  if 0 ≤ i then l.get? i.toNat else none

/-- `Draw.render` (lines 244-366). Layout runs when `isComputeRowList`,
mutating the element list in place; the position list is rebuilt from scratch
and the selection rectangle painted per `drawRows`; the caret index defaults
to the last position entry; when `isSetCursor` the cursor position is set
from `positionList[curIndex]`; when `isSubmitHistory` a history record is
pushed capturing the range and a `deepClone` of `this.elementList` as they
stand at capture time. Canvas resizing and the collaborator paints have no
effect on the modelled state. -/
def render (o : EditorOptions) (st : DrawState) (payload : IDrawOption) :
    RenderResult :=
  let lay :=
    if payload.isComputeRowList then computeRowList o st.elementList
    else (st.elementList, st.rowList)
  let t := drawRows o st.range lay.2 0 (JSNum.num o.marginTop) 0
  let curIndex : ℤ :=
    match payload.curIndex with
    | some k => k
    | none => (t.1.length : ℤ) - 1
  let cursorPosition :=
    if payload.isSetCursor then listAtZ t.1 curIndex else st.cursorPosition
  let historyStack :=
    if payload.isSubmitHistory then
      { startIndex := st.range.startIndex
        endIndex := st.range.endIndex
        elementList := lay.1
        curIndex := curIndex } :: st.historyStack
    else st.historyStack
  { state :=
      { elementList := lay.1
        rowList := lay.2
        positionList := t.1
        range := st.range
        cursorPosition := cursorPosition
        historyStack := historyStack }
    selectionPaints := t.2 }

/-- Total number of row elements across a row list. -/
def rowsLen (rows : List IRow) : ℕ :=
  (rows.map fun r => r.elementList.length).sum

/-- Two elements agreeing on every field except `width` and `height` — the
only two fields the layout pass may mutate in place (image overflow). -/
def sameExceptWH (e e' : IElement) : Prop :=
  e'.type = e.type ∧ e'.value = e.value ∧ e'.size = e.size ∧ e'.font = e.font ∧
  e'.bold = e.bold ∧ e'.italic = e.italic ∧ e'.underline = e.underline ∧
  e'.strikeout = e.strikeout ∧ e'.highlight = e.highlight ∧
  e'.rowFlex = e.rowFlex ∧ e'.rowMargin = e.rowMargin ∧
  e'.measuredWidth = e.measuredWidth ∧ e'.measuredAscent = e.measuredAscent ∧
  e'.measuredDescent = e.measuredDescent

/-- A row whose `rowFlex` equals the row-flex of its own first member. -/
def rowFlexFromFirst (r : IRow) : Prop :=
  ∃ re l, r.elementList = re :: l ∧ r.rowFlex = re.element.rowFlex

/-- `r` is `c` after zero or more accumulate steps: its `rowFlex` is
unchanged and its first member is preserved whenever `c` already had one. -/
def rowEvolved (c r : IRow) : Prop :=
  r.rowFlex = c.rowFlex ∧
  ∀ re, c.elementList.head? = some re → r.elementList.head? = some re

def demoOptions : EditorOptions :=
  { marginTop := 5, marginRight := 10, marginBottom := 5, marginLeft := 10
    defaultSize := 16, defaultFont := "sans"
    defaultRowMargin := 1, defaultBasicRowMarginHeight := 8
    canvasRectWidth := 120, canvasWidth := 120
    initialCtxFont := { italic := false, bold := false, size := 16, font := "sans" } }

def demoText (v : String) (w : ℚ) : IElement :=
  { value := v, measuredWidth := w, measuredAscent := 10, measuredDescent := 2 }

def demoImage (w : ℚ) (h : ℚ) : IElement :=
  { type := ElementType.image, value := "img", width := w, height := JSNum.num h }

def demoFive : List IElement :=
  [demoText "a" 10, demoText "b" 10, demoText "c" 10, demoText "d" 10, demoText "e" 10]

def demoStateFive : DrawState :=
  { elementList := demoFive, rowList := [], positionList := [],
    range := { startIndex := 1, endIndex := 3 },
    cursorPosition := none, historyStack := [] }

def demoShrink : List IElement := [demoText "t" 60, demoImage 100 50]

/-- State whose render triggers the in-place image shrink during layout. -/
def demoShrinkState : DrawState :=
  { elementList := demoShrink, rowList := [], positionList := [],
    range := { startIndex := 0, endIndex := 0 },
    cursorPosition := none, historyStack := [] }

/-- A text run of width 100 filling the inner width exactly, followed by an
image: the image meets a row whose accumulated width equals the available
inner width, so the shrink surplus is zero. -/
def demoZeroSurplus : List IElement := [demoText "t" 100, demoImage 100 50]

/-- Options with inner width 25 (canvas rect 45, horizontal margins 10). -/
def demoOptions25 : EditorOptions :=
  { marginTop := 5, marginRight := 10, marginBottom := 5, marginLeft := 10
    defaultSize := 16, defaultFont := "sans"
    defaultRowMargin := 1, defaultBasicRowMarginHeight := 8
    canvasRectWidth := 45, canvasWidth := 45
    initialCtxFont := { italic := false, bold := false, size := 16, font := "sans" } }

/-- The spec scenario: three text elements of width 10 with available width 25. -/
def demoABC : List IElement := [demoText "A" 10, demoText "B" 10, demoText "C" 10]

/-- Elements whose layout (at inner width 25) makes the initial row's flex
come from the second overall element (center) while the row created at the
break has a first member with right flex. -/
def demoFlex : List IElement :=
  [demoText "x" 10,
   { demoText "y" 10 with rowFlex := some RowFlex.center },
   { demoText "z" 20 with rowFlex := some RowFlex.right }]

/-- A current row accumulated to width `w` (as `_computeRowList` would hold it
mid-loop), used to exercise `layoutStep` directly. -/
def demoRow (w : ℚ) : IRow :=
  { width := w, height := JSNum.num 28, ascent := JSNum.num 18,
    elementList := [], rowFlex := none }

/-! ### Small arithmetic lemmas about `JSNum` -/

lemma jsAdd_nan_left (x : JSNum) : jsAdd JSNum.nan x = JSNum.nan := by
  cases x <;> rfl

lemma jsAdd_nan_right (x : JSNum) : jsAdd x JSNum.nan = JSNum.nan := by
  cases x <;> rfl

lemma jsLt_nan_right (x : JSNum) : jsLt x JSNum.nan = false := by
  cases x <;> rfl

lemma jsShrink_zero (x : JSNum) : jsShrink x 0 = JSNum.nan := by
  cases x <;> simp [jsShrink]

/-! ### Projection lemmas for one layout iteration -/

lemma layoutStep_element (o : EditorOptions) (iw : ℚ) (i : ℕ) (el : IElement)
    (fnt : CtxFont) (cur : IRow) :
    (layoutStep o iw i el fnt cur).element = (resolveElement o iw el fnt cur).element := by
  simp only [layoutStep]
  split <;> rfl

lemma layoutStep_metrics (o : EditorOptions) (iw : ℚ) (i : ℕ) (el : IElement)
    (fnt : CtxFont) (cur : IRow) :
    (layoutStep o iw i el fnt cur).metrics = (resolveElement o iw el fnt cur).metrics := by
  simp only [layoutStep]
  split <;> rfl

lemma resolveElement_image_overflow (o : EditorOptions) (iw : ℚ) (el : IElement)
    (fnt : CtxFont) (cur : IRow)
    (himg : el.type = ElementType.image) (hover : cur.width + el.width > iw) :
    resolveElement o iw el fnt cur =
      { metrics :=
          { width := iw - cur.width
            height := el.height
            boundingBoxAscent := 0
            boundingBoxDescent := jsShrink el.height (iw - cur.width) }
        element :=
          { el with width := iw - cur.width, height := jsShrink el.height (iw - cur.width) }
        ctxFont := fnt } := by
  simp [resolveElement, himg, hover]

/-- C3, amended: in the row layout pass, when an image element's width would
make the current row's accumulated width exceed the available inner width,
the image element's width is set to the remaining row space
`innerWidth - curRow.width`, and — whenever that remaining space is nonzero —
the height recomputation `height * surplus / surplus` is a no-op, leaving the
height unchanged (with zero remaining space the height instead becomes `NaN`,
see the C10 theorems). -/
theorem image_shrink_sets_width_preserves_height (o : EditorOptions) (iw : ℚ)
    (i : ℕ) (el : IElement) (fnt : CtxFont) (cur : IRow)
    (himg : el.type = ElementType.image) (hover : cur.width + el.width > iw)
    (hsur : iw - cur.width ≠ 0) :
    (layoutStep o iw i el fnt cur).element.width = iw - cur.width ∧
    (layoutStep o iw i el fnt cur).element.height = el.height := by
  rw [layoutStep_element, resolveElement_image_overflow o iw el fnt cur himg hover]
  refine ⟨rfl, ?_⟩
  show jsShrink el.height (iw - cur.width) = el.height
  cases el.height with
  | num q => simp [jsShrink, hsur, mul_div_cancel_right₀ q hsur]
  | nan => rfl

/-- Witness for C3: an image of intrinsic width 100 and height 50 laid out
with 40px of row space remaining ends up with width 40 and height still 50. -/
theorem image_shrink_sets_width_preserves_height_witness :
    (demoImage 100 50).type = ElementType.image ∧
    (demoRow 60).width + (demoImage 100 50).width > innerWidth demoOptions ∧
    innerWidth demoOptions - (demoRow 60).width ≠ 0 ∧
    ((layoutStep demoOptions (innerWidth demoOptions) 1 (demoImage 100 50)
        demoOptions.initialCtxFont (demoRow 60)).element.width =
          innerWidth demoOptions - (demoRow 60).width ∧
      (layoutStep demoOptions (innerWidth demoOptions) 1 (demoImage 100 50)
        demoOptions.initialCtxFont (demoRow 60)).element.height =
          (demoImage 100 50).height) ∧
    innerWidth demoOptions - (demoRow 60).width = 40 ∧
    (demoImage 100 50).height = JSNum.num 50 :=
  ⟨by with_unfolding_all decide, by with_unfolding_all decide,
   by with_unfolding_all decide,
   image_shrink_sets_width_preserves_height demoOptions (innerWidth demoOptions) 1
     (demoImage 100 50) demoOptions.initialCtxFont (demoRow 60)
     (by with_unfolding_all decide) (by with_unfolding_all decide)
     (by with_unfolding_all decide),
   by with_unfolding_all decide, by with_unfolding_all decide⟩

/-- Counterexample to C3 as stated: when the remaining row space is zero, the
"no-op" height recomputation is `50 * 0 / 0`, and the image's height is *not*
left unchanged: it becomes `NaN`. Input: a text run of width 100 filling the
inner width 100 exactly, then an image of intrinsic width 100 and height 50. -/
theorem image_shrink_zero_surplus_height_nan :
    (demoZeroSurplus.map fun e => (e.width, e.height)) =
      [(0, JSNum.num 0), (100, JSNum.num 50)] ∧
    ((computeRowList demoOptions demoZeroSurplus).1.map fun e => (e.width, e.height)) =
      [(0, JSNum.num 0), (0, JSNum.nan)] ∧
    JSNum.nan ≠ JSNum.num 50 := by
  with_unfolding_all decide

/-- C4: one loop iteration of `_computeRowList` starts a new row exactly when
(a) adding the element's measured width to the current row's width would
exceed the available inner width, or (b) the element is the explicit
line-break marker `ZERO` and it is not the very first element of the whole
sequence; and the spec scenario: texts "A","B","C" of width 10 each with
available width 25 produce rows `[A,B]` of width 20 and `[C]` of width 10. -/
theorem row_break_policy :
    (∀ (o : EditorOptions) (iw : ℚ) (i : ℕ) (el : IElement) (fnt : CtxFont) (cur : IRow),
      (layoutStep o iw i el fnt cur).pushedRow = some cur ↔
        cur.width + (layoutStep o iw i el fnt cur).metrics.width > iw ∨
          (i ≠ 0 ∧ el.value = ZERO)) ∧
    ((computeRowList demoOptions25 demoABC).2.map fun r =>
        (r.elementList.map fun re => re.element.value, r.width)) =
      [(["A", "B"], 20), (["C"], 10)] := by
  constructor
  · intro o iw i el fnt cur
    rw [layoutStep_metrics]
    simp only [layoutStep]
    split
    · rename_i h
      simp [h]
    · rename_i h
      simp [h]
  · with_unfolding_all decide

/-- C10, amended: when an image with positive width meets a row whose
accumulated width already equals the available inner width exactly, the
shrink branch sets the image's width to 0 and its height to `NaN` via the
unguarded `0 / 0`; the `NaN` flows into the image element's stored height and
into its metrics' bounding-box descent, but *not* into the row's height: the
element joins the current row (no row break, since the element's value is not
the line-break marker), and the `curRow.height < height` comparison against
`NaN` is false, so the row's width, height and ascent are all unchanged. -/
theorem zero_surplus_nan_confined (o : EditorOptions) (iw : ℚ) (i : ℕ)
    (el : IElement) (fnt : CtxFont) (cur : IRow)
    (himg : el.type = ElementType.image) (hexact : cur.width = iw)
    (hpos : 0 < el.width) (hz : el.value ≠ ZERO) :
    (layoutStep o iw i el fnt cur).element.width = 0 ∧
    (layoutStep o iw i el fnt cur).element.height = JSNum.nan ∧
    (layoutStep o iw i el fnt cur).metrics.boundingBoxDescent = JSNum.nan ∧
    (layoutStep o iw i el fnt cur).pushedRow = none ∧
    (layoutStep o iw i el fnt cur).curRow.width = cur.width ∧
    (layoutStep o iw i el fnt cur).curRow.height = cur.height ∧
    (layoutStep o iw i el fnt cur).curRow.ascent = cur.ascent := by
  have hover : cur.width + el.width > iw := by rw [hexact]; linarith
  have hsur : iw - cur.width = 0 := by rw [hexact, sub_self]
  have hres := resolveElement_image_overflow o iw el fnt cur himg hover
  rw [hsur, jsShrink_zero] at hres
  refine ⟨?_, ?_, ?_, ?_⟩
  · rw [layoutStep_element, hres]
  · rw [layoutStep_element, hres]
  · rw [layoutStep_metrics, hres]
  · have h2 : ¬(i ≠ 0 ∧ el.value = ZERO) := fun hc => hz hc.2
    simp only [layoutStep, hres]
    simp [hexact, h2, jsAdd_nan_left, jsAdd_nan_right, jsLt_nan_right]

/-- Witness for C10: an image of width 100 and height 50 meeting a row already
filled to the inner width 100. -/
theorem zero_surplus_nan_confined_witness :
    (demoImage 100 50).type = ElementType.image ∧
    (demoRow 100).width = innerWidth demoOptions ∧
    (0:ℚ) < (demoImage 100 50).width ∧
    (demoImage 100 50).value ≠ ZERO ∧
    ((layoutStep demoOptions (innerWidth demoOptions) 1 (demoImage 100 50)
        demoOptions.initialCtxFont (demoRow 100)).element.width = 0 ∧
      (layoutStep demoOptions (innerWidth demoOptions) 1 (demoImage 100 50)
        demoOptions.initialCtxFont (demoRow 100)).element.height = JSNum.nan ∧
      (layoutStep demoOptions (innerWidth demoOptions) 1 (demoImage 100 50)
        demoOptions.initialCtxFont (demoRow 100)).metrics.boundingBoxDescent = JSNum.nan ∧
      (layoutStep demoOptions (innerWidth demoOptions) 1 (demoImage 100 50)
        demoOptions.initialCtxFont (demoRow 100)).pushedRow = none ∧
      (layoutStep demoOptions (innerWidth demoOptions) 1 (demoImage 100 50)
        demoOptions.initialCtxFont (demoRow 100)).curRow.width = (demoRow 100).width ∧
      (layoutStep demoOptions (innerWidth demoOptions) 1 (demoImage 100 50)
        demoOptions.initialCtxFont (demoRow 100)).curRow.height = (demoRow 100).height ∧
      (layoutStep demoOptions (innerWidth demoOptions) 1 (demoImage 100 50)
        demoOptions.initialCtxFont (demoRow 100)).curRow.ascent = (demoRow 100).ascent) :=
  ⟨by with_unfolding_all decide, by with_unfolding_all decide,
   by with_unfolding_all decide, by with_unfolding_all decide,
   zero_surplus_nan_confined demoOptions (innerWidth demoOptions) 1 (demoImage 100 50)
     demoOptions.initialCtxFont (demoRow 100)
     (by with_unfolding_all decide) (by with_unfolding_all decide)
     (by with_unfolding_all decide) (by with_unfolding_all decide)⟩

/-- Counterexample to C10 as stated: on the zero-surplus input the image's
height does become `NaN` (it flows into the element and its metrics), but the
`NaN` does *not* flow into the row's height — the single produced row keeps
the finite height 28 contributed by the text element, because the
`curRow.height < height` comparison against `NaN` is false. -/
theorem zero_surplus_row_height_not_nan :
    ((computeRowList demoOptions demoZeroSurplus).1.map fun e => e.height) =
      [JSNum.num 0, JSNum.nan] ∧
    ((computeRowList demoOptions demoZeroSurplus).2.map fun r => r.height) =
      [JSNum.num 28] ∧
    JSNum.num 28 ≠ JSNum.nan := by
  with_unfolding_all decide

/-! ### Row completeness (C6) -/

lemma rowsLen_cons (r : IRow) (rows : List IRow) :
    rowsLen (r :: rows) = r.elementList.length + rowsLen rows := by
  simp [rowsLen]

lemma rowsLen_reverse (rows : List IRow) : rowsLen rows.reverse = rowsLen rows := by
  simp [rowsLen, List.map_reverse, List.sum_reverse]

lemma layoutStep_rowsLen (o : EditorOptions) (iw : ℚ) (i : ℕ) (el : IElement)
    (fnt : CtxFont) (cur : IRow) (done : List IRow) :
    rowsLen ((layoutStep o iw i el fnt cur).curRow ::
        pushDone (layoutStep o iw i el fnt cur).pushedRow done) =
      rowsLen (cur :: done) + 1 := by
  simp only [layoutStep]
  split
  · simp [rowsLen, pushDone]
    omega
  · simp [rowsLen, pushDone]
    omega

lemma layoutLoop_rowsLen (o : EditorOptions) (iw : ℚ) (els : List IElement) :
    ∀ (i : ℕ) (fnt : CtxFont) (cur : IRow) (done : List IRow),
      rowsLen ((layoutLoop o iw els i fnt cur done).2.1 ::
          (layoutLoop o iw els i fnt cur done).2.2) =
        rowsLen (cur :: done) + els.length := by
  induction els with
  | nil =>
    intro i fnt cur done
    simp [layoutLoop]
  | cons el rest ih =>
    intro i fnt cur done
    simp only [layoutLoop]
    rw [ih, layoutStep_rowsLen]
    simp only [List.length_cons]
    omega

/-- C6: the layout pass assigns each element to exactly one row — the sum
over all produced rows of the number of row elements equals the length of
the input element sequence — and the empty element sequence yields an empty
row list (and an unchanged element list) without error. -/
theorem row_completeness :
    (∀ (o : EditorOptions) (els : List IElement),
      rowsLen (computeRowList o els).2 = els.length) ∧
    (∀ o : EditorOptions, computeRowList o [] = ([], [])) := by
  constructor
  · intro o els
    cases els with
    | nil => simp [computeRowList, rowsLen]
    | cons el rest =>
      simp only [computeRowList]
      rw [rowsLen_reverse, layoutLoop_rowsLen]
      simp [rowsLen]
  · intro o
    rfl

/-! ### Layout frame effect on the element list (C9) -/

lemma resolveElement_image_fit (o : EditorOptions) (iw : ℚ) (el : IElement)
    (fnt : CtxFont) (cur : IRow) (himg : el.type = ElementType.image)
    (hfit : ¬(cur.width + el.width > iw)) :
    (resolveElement o iw el fnt cur).element = el := by
  simp [resolveElement, himg, hfit]

lemma resolveElement_text (o : EditorOptions) (iw : ℚ) (el : IElement)
    (fnt : CtxFont) (cur : IRow) (ht : ¬(el.type = ElementType.image)) :
    (resolveElement o iw el fnt cur).element = el := by
  simp [resolveElement, ht]

lemma layoutStep_element_frame (o : EditorOptions) (iw : ℚ) (i : ℕ) (el : IElement)
    (fnt : CtxFont) (cur : IRow) :
    sameExceptWH el (layoutStep o iw i el fnt cur).element ∧
    (el.type ≠ ElementType.image → (layoutStep o iw i el fnt cur).element = el) := by
  rw [layoutStep_element]
  by_cases h : el.type = ElementType.image
  · by_cases hover : cur.width + el.width > iw
    · rw [resolveElement_image_overflow o iw el fnt cur h hover]
      exact ⟨⟨rfl, rfl, rfl, rfl, rfl, rfl, rfl, rfl, rfl, rfl, rfl, rfl, rfl, rfl⟩,
        fun hc => absurd h hc⟩
    · rw [resolveElement_image_fit o iw el fnt cur h hover]
      exact ⟨⟨rfl, rfl, rfl, rfl, rfl, rfl, rfl, rfl, rfl, rfl, rfl, rfl, rfl, rfl⟩,
        fun _ => rfl⟩
  · rw [resolveElement_text o iw el fnt cur h]
    exact ⟨⟨rfl, rfl, rfl, rfl, rfl, rfl, rfl, rfl, rfl, rfl, rfl, rfl, rfl, rfl⟩,
      fun _ => rfl⟩

lemma layoutLoop_elements_frame (o : EditorOptions) (iw : ℚ) (els : List IElement) :
    ∀ (i : ℕ) (fnt : CtxFont) (cur : IRow) (done : List IRow),
      List.Forall₂ (fun e e' => sameExceptWH e e' ∧ (e.type ≠ ElementType.image → e' = e))
        els (layoutLoop o iw els i fnt cur done).1 := by
  induction els with
  | nil =>
    intro i fnt cur done
    simp [layoutLoop]
  | cons el rest ih =>
    intro i fnt cur done
    simp only [layoutLoop]
    exact List.Forall₂.cons (layoutStep_element_frame o iw i el fnt cur)
      (ih (i + 1) _ _ _)

/-- C9: the layout pass is not read-only on the element sequence — on the
shrink demo the output element list differs from the input, the shrunk image
retains width 40 (not the intrinsic 100) and a second layout pass sees (and
keeps) the shrunk dimensions — while every element agrees with its pre-layout
self on all fields other than `width` and `height`, and every non-image
element is returned entirely unchanged. -/
theorem layout_mutates_only_image_dimensions :
    (∀ (o : EditorOptions) (els : List IElement),
      List.Forall₂ (fun e e' => sameExceptWH e e' ∧ (e.type ≠ ElementType.image → e' = e))
        els (computeRowList o els).1) ∧
    (computeRowList demoOptions demoShrink).1 ≠ demoShrink ∧
    ((computeRowList demoOptions demoShrink).1.map fun e => (e.width, e.height)) =
      [(0, JSNum.num 0), (40, JSNum.num 50)] ∧
    ((computeRowList demoOptions (computeRowList demoOptions demoShrink).1).1.map
        fun e => (e.width, e.height)) =
      [(0, JSNum.num 0), (40, JSNum.num 50)] := by
  refine ⟨?_, by with_unfolding_all decide, by with_unfolding_all decide,
    by with_unfolding_all decide⟩
  intro o els
  cases els with
  | nil => simp [computeRowList]
  | cons el rest =>
    simp only [computeRowList]
    exact layoutLoop_elements_frame o (innerWidth o) (el :: rest) 0 _ _ _

/-- Witness for C9's universal part, instantiated on the shrink demo. -/
theorem layout_mutates_only_image_dimensions_witness :
    List.Forall₂ (fun e e' => sameExceptWH e e' ∧ (e.type ≠ ElementType.image → e' = e))
      demoShrink (computeRowList demoOptions demoShrink).1 :=
  layout_mutates_only_image_dimensions.1 demoOptions demoShrink

/-! ### Row width containment (C5) -/

lemma layoutStep_pushed (o : EditorOptions) (iw : ℚ) (i : ℕ) (el : IElement)
    (fnt : CtxFont) (cur : IRow) :
    (layoutStep o iw i el fnt cur).pushedRow = none ∨
    (layoutStep o iw i el fnt cur).pushedRow = some cur := by
  simp only [layoutStep]
  split
  · exact Or.inr rfl
  · exact Or.inl rfl

lemma layoutStep_curRow_containment (o : EditorOptions) (iw : ℚ) (i : ℕ)
    (el : IElement) (fnt : CtxFont) (cur : IRow) :
    (layoutStep o iw i el fnt cur).curRow.width ≤ iw ∨
      ∃ re, (layoutStep o iw i el fnt cur).curRow.elementList = [re] ∧
        re.metrics.width > iw := by
  simp only [layoutStep]
  split
  · rename_i h
    by_cases hw : (resolveElement o iw el fnt cur).metrics.width ≤ iw
    · exact Or.inl hw
    · exact Or.inr ⟨_, rfl, not_le.mp hw⟩
  · rename_i h
    rw [not_or] at h
    exact Or.inl (not_lt.mp h.1)

lemma layoutLoop_containment (o : EditorOptions) (iw : ℚ) (els : List IElement) :
    ∀ (i : ℕ) (fnt : CtxFont) (cur : IRow) (done : List IRow),
      (cur.width ≤ iw ∨ ∃ re, cur.elementList = [re] ∧ re.metrics.width > iw) →
      (∀ r ∈ done, r.width ≤ iw ∨ ∃ re, r.elementList = [re] ∧ re.metrics.width > iw) →
      ∀ r ∈ (layoutLoop o iw els i fnt cur done).2.1 ::
          (layoutLoop o iw els i fnt cur done).2.2,
        r.width ≤ iw ∨ ∃ re, r.elementList = [re] ∧ re.metrics.width > iw := by
  induction els with
  | nil =>
    intro i fnt cur done hcur hdone r hr
    simp only [layoutLoop, List.mem_cons] at hr
    rcases hr with rfl | hr
    · exact hcur
    · exact hdone r hr
  | cons el rest ih =>
    intro i fnt cur done hcur hdone
    simp only [layoutLoop]
    apply ih
    · exact layoutStep_curRow_containment o iw i el fnt cur
    · intro r hr
      rcases layoutStep_pushed o iw i el fnt cur with hp | hp
      · rw [hp] at hr
        exact hdone r hr
      · rw [hp] at hr
        simp only [pushDone, List.mem_cons] at hr
        rcases hr with rfl | hr
        · exact hcur
        · exact hdone r hr

/-- C5: every row produced by the layout pass either fits —
`row.width ≤ innerWidth` — or consists of a single row element whose own
measured width exceeds `innerWidth` (such an element is still placed, never
dropped). Rows forced by a line-break marker, which the claim also exempts,
in fact satisfy the same disjunction. -/
theorem row_width_containment (o : EditorOptions) (els : List IElement)
    (h : 0 ≤ innerWidth o) :
    ∀ r ∈ (computeRowList o els).2,
      r.width ≤ innerWidth o ∨
        ∃ re, r.elementList = [re] ∧ re.metrics.width > innerWidth o := by
  cases els with
  | nil =>
    intro r hr
    simp [computeRowList] at hr
  | cons el rest =>
    simp only [computeRowList]
    intro r hr
    rw [List.mem_reverse] at hr
    exact layoutLoop_containment o (innerWidth o) (el :: rest) 0 _ _ []
      (Or.inl h) (by simp) r hr

/-- Witness for C5 on the spec's three-element scenario (inner width 25). -/
theorem row_width_containment_witness :
    (0:ℚ) ≤ innerWidth demoOptions25 ∧
    ∀ r ∈ (computeRowList demoOptions25 demoABC).2,
      r.width ≤ innerWidth demoOptions25 ∨
        ∃ re, r.elementList = [re] ∧ re.metrics.width > innerWidth demoOptions25 :=
  ⟨by with_unfolding_all decide,
   row_width_containment demoOptions25 demoABC (by with_unfolding_all decide)⟩

/-! ### Row-flex provenance (C8) -/

lemma rowEvolved_rfl (r : IRow) : rowEvolved r r :=
  ⟨rfl, fun _ h => h⟩

lemma rowEvolved_trans {a b c : IRow} (h1 : rowEvolved a b) (h2 : rowEvolved b c) :
    rowEvolved a c :=
  ⟨h2.1.trans h1.1, fun re h => h2.2 re (h1.2 re h)⟩

lemma rowFlexFromFirst_evolved {c r : IRow} (hq : rowFlexFromFirst c)
    (he : rowEvolved c r) : rowFlexFromFirst r := by
  obtain ⟨re, l, hel, hflex⟩ := hq
  have hh : r.elementList.head? = some re := he.2 re (by rw [hel]; rfl)
  cases hrl : r.elementList with
  | nil => rw [hrl] at hh; cases hh
  | cons b t =>
    rw [hrl] at hh
    simp only [List.head?_cons, Option.some.injEq] at hh
    exact ⟨re, t, by rw [hrl, hh], he.1.trans hflex⟩

lemma layoutStep_flex (o : EditorOptions) (iw : ℚ) (i : ℕ) (el : IElement)
    (fnt : CtxFont) (cur : IRow) :
    ((layoutStep o iw i el fnt cur).pushedRow = none ∧
      rowEvolved cur (layoutStep o iw i el fnt cur).curRow) ∨
    ((layoutStep o iw i el fnt cur).pushedRow = some cur ∧
      rowFlexFromFirst (layoutStep o iw i el fnt cur).curRow) := by
  simp only [layoutStep]
  split
  · exact Or.inr ⟨rfl, _, [], rfl, rfl⟩
  · refine Or.inl ⟨rfl, rfl, fun re hre => ?_⟩
    cases hel : cur.elementList with
    | nil => rw [hel] at hre; cases hre
    | cons a t =>
      rw [hel] at hre
      simp only [List.head?_cons, Option.some.injEq] at hre
      simp [hel, hre]

lemma layoutLoop_flex (o : EditorOptions) (iw : ℚ) (els : List IElement) :
    ∀ (i : ℕ) (fnt : CtxFont) (cur : IRow) (done : List IRow),
      ∃ Y, (layoutLoop o iw els i fnt cur done).2.2 = Y ++ done ∧
        ((Y = [] ∧ rowEvolved cur (layoutLoop o iw els i fnt cur done).2.1) ∨
          (rowFlexFromFirst (layoutLoop o iw els i fnt cur done).2.1 ∧
            ∃ Z r, Y = Z ++ [r] ∧ (∀ q ∈ Z, rowFlexFromFirst q) ∧ rowEvolved cur r)) := by
  induction els with
  | nil =>
    intro i fnt cur done
    exact ⟨[], rfl, Or.inl ⟨rfl, rowEvolved_rfl cur⟩⟩
  | cons el rest ih =>
    intro i fnt cur done
    simp only [layoutLoop]
    rcases layoutStep_flex o iw i el fnt cur with ⟨hp, hev⟩ | ⟨hp, hq⟩
    · rw [hp]
      simp only [pushDone]
      obtain ⟨Y, hY, hcase⟩ := ih (i + 1) (layoutStep o iw i el fnt cur).ctxFont
        (layoutStep o iw i el fnt cur).curRow done
      refine ⟨Y, hY, ?_⟩
      rcases hcase with ⟨hYnil, hev2⟩ | ⟨hq2, Z, r, hZr, hZ, hev2⟩
      · exact Or.inl ⟨hYnil, rowEvolved_trans hev hev2⟩
      · exact Or.inr ⟨hq2, Z, r, hZr, hZ, rowEvolved_trans hev hev2⟩
    · rw [hp]
      simp only [pushDone]
      obtain ⟨Y, hY, hcase⟩ := ih (i + 1) (layoutStep o iw i el fnt cur).ctxFont
        (layoutStep o iw i el fnt cur).curRow (cur :: done)
      refine ⟨Y ++ [cur], by rw [hY]; simp, Or.inr ?_⟩
      rcases hcase with ⟨hYnil, hev2⟩ | ⟨hq2, Z, r, hZr, hZ, hev2⟩
      · refine ⟨rowFlexFromFirst_evolved hq hev2, [], cur, ?_, by simp, rowEvolved_rfl cur⟩
        rw [hYnil]
      · refine ⟨hq2, Z ++ [r], cur, ?_, ?_, rowEvolved_rfl cur⟩
        · rw [hZr]
        · intro q hq'
          rcases List.mem_append.mp hq' with hq' | hq'
          · exact hZ q hq'
          · rw [List.mem_singleton.mp hq']
            exact rowFlexFromFirst_evolved hq hev2

/-- C8, amended: only the *initial* row (seeded before the loop) takes its
row-flex from `elementList[1]`, the second element of the overall sequence;
every row created later at a row break takes its row-flex from its own first
member. -/
theorem rowFlex_initial_and_break_rows (o : EditorOptions) (els : List IElement)
    (h : els ≠ []) :
    ∃ r0 rest, (computeRowList o els).2 = r0 :: rest ∧
      r0.rowFlex = (els.get? 1).bind (fun e => e.rowFlex) ∧
      ∀ r ∈ rest, rowFlexFromFirst r := by
  obtain ⟨el, tl, rfl⟩ := List.exists_cons_of_ne_nil h
  obtain ⟨Y, hY, hcase⟩ := layoutLoop_flex o (innerWidth o) (el :: tl) 0 o.initialCtxFont
    { width := 0, height := JSNum.num 0, ascent := JSNum.num 0,
      elementList := [],
      rowFlex := ((el :: tl).get? 1).bind fun e => e.rowFlex } []
  rw [List.append_nil] at hY
  simp only [computeRowList]
  rcases hcase with ⟨hYnil, hev⟩ | ⟨hq, Z, r, hZr, hZ, hev⟩
  · refine ⟨_, [], ?_, hev.1, by simp⟩
    rw [hY, hYnil]
    rfl
  · refine ⟨r, Z.reverse ++ [(layoutLoop o (innerWidth o) (el :: tl) 0 o.initialCtxFont
      { width := 0, height := JSNum.num 0, ascent := JSNum.num 0,
        elementList := [],
        rowFlex := ((el :: tl).get? 1).bind fun e => e.rowFlex } []).2.1],
      ?_, hev.1, ?_⟩
    · rw [hY, hZr]
      simp
    · intro q hq'
      rcases List.mem_append.mp hq' with hq' | hq'
      · exact hZ q (List.mem_reverse.mp hq')
      · rw [List.mem_singleton.mp hq']
        exact hq

/-- Witness for C8 (amended) on the flex demo: the initial row takes flex
`center` from the second overall element, the break row has its own first
member's flex. -/
theorem rowFlex_initial_and_break_rows_witness :
    demoFlex ≠ [] ∧
    (∃ r0 rest, (computeRowList demoOptions25 demoFlex).2 = r0 :: rest ∧
      r0.rowFlex = (demoFlex.get? 1).bind (fun e => e.rowFlex) ∧
      ∀ r ∈ rest, rowFlexFromFirst r) :=
  ⟨by with_unfolding_all decide,
   rowFlex_initial_and_break_rows demoOptions25 demoFlex (by with_unfolding_all decide)⟩

/-- Counterexample to C8 as stated universally: on the flex demo the row
created at the break has row-flex `right`, its own first member's flex, not
the `center` flex of `elementList[1]`. -/
theorem rowFlex_second_element_only_first_row :
    ((computeRowList demoOptions25 demoFlex).2.map fun r => r.rowFlex) =
      [some RowFlex.center, some RowFlex.right] ∧
    (demoFlex.get? 1).bind (fun e => e.rowFlex) = some RowFlex.center ∧
    some RowFlex.right ≠ some RowFlex.center := by
  with_unfolding_all decide

/-! ### Position entries and selection painting (C1, C7) -/

lemma drawRowElements_index (rg : IRange) (rowNo : ℕ) (row : IRow)
    (els : List IRowElement) :
    ∀ (x : ℚ) (y : JSNum) (n : ℕ),
      ((drawRowElements rg rowNo row els x y n).1.map fun p => p.index) =
        List.range' n els.length := by
  induction els with
  | nil =>
    intro x y n
    simp [drawRowElements]
  | cons el rest ih =>
    intro x y n
    simp only [drawRowElements, List.map_cons, List.length_cons]
    rw [ih, List.range'_succ]

lemma drawRowElements_sel (rg : IRange) (rowNo : ℕ) (row : IRow)
    (els : List IRowElement) :
    ∀ (x : ℚ) (y : JSNum) (n : ℕ),
      (drawRowElements rg rowNo row els x y n).2 =
        (List.range' n els.length).filter fun k =>
          decide (rg.startIndex ≠ rg.endIndex ∧ rg.startIndex < k ∧ k ≤ rg.endIndex) := by
  induction els with
  | nil =>
    intro x y n
    simp [drawRowElements]
  | cons el rest ih =>
    intro x y n
    simp only [drawRowElements, List.length_cons]
    rw [ih, List.range'_succ, List.filter_cons]
    by_cases hc : rg.startIndex ≠ rg.endIndex ∧ rg.startIndex < n ∧ n ≤ rg.endIndex
    · simp [hc]
    · simp [hc]

lemma drawRows_index (o : EditorOptions) (rg : IRange) (rows : List IRow) :
    ∀ (rowNo : ℕ) (y : JSNum) (n : ℕ),
      ((drawRows o rg rows rowNo y n).1.map fun p => p.index) =
        List.range' n (rowsLen rows) := by
  induction rows with
  | nil =>
    intro rowNo y n
    simp [drawRows, rowsLen]
  | cons row rest ih =>
    intro rowNo y n
    simp only [drawRows, List.map_append]
    rw [drawRowElements_index, ih, rowsLen_cons]
    have h := List.range'_append n row.elementList.length (rowsLen rest) 1
    simp only [one_mul] at h
    rw [h, Nat.add_comm]

lemma drawRows_sel (o : EditorOptions) (rg : IRange) (rows : List IRow) :
    ∀ (rowNo : ℕ) (y : JSNum) (n : ℕ),
      (drawRows o rg rows rowNo y n).2 =
        (List.range' n (rowsLen rows)).filter fun k =>
          decide (rg.startIndex ≠ rg.endIndex ∧ rg.startIndex < k ∧ k ≤ rg.endIndex) := by
  induction rows with
  | nil =>
    intro rowNo y n
    simp [drawRows, rowsLen]
  | cons row rest ih =>
    intro rowNo y n
    simp only [drawRows]
    rw [drawRowElements_sel, ih, rowsLen_cons, ← List.filter_append]
    have h := List.range'_append n row.elementList.length (rowsLen rest) 1
    simp only [one_mul] at h
    rw [h, Nat.add_comm]

lemma drawRows_length (o : EditorOptions) (rg : IRange) (rows : List IRow)
    (rowNo : ℕ) (y : JSNum) (n : ℕ) :
    (drawRows o rg rows rowNo y n).1.length = rowsLen rows := by
  have h := congrArg List.length (drawRows_index o rg rows rowNo y n)
  simpa using h

/-- C7: after every render, the position list satisfies
`positionList[i].index = i` for every `i` — its indices are exactly
`0, 1, …, len-1` in order — and its length equals the number of elements
actually rendered across all rows. -/
theorem position_index_identity (o : EditorOptions) (st : DrawState) (p : IDrawOption) :
    ((render o st p).state.positionList.map fun q => q.index) =
      List.range (render o st p).state.positionList.length ∧
    (render o st p).state.positionList.length =
      rowsLen (render o st p).state.rowList := by
  simp only [render]
  constructor
  · rw [drawRows_index, drawRows_length, List.range_eq_range']
  · rw [drawRows_length]

/-- C1, amended: the selection rectangle is painted over exactly the
rendered elements whose sequence index lies in the half-open interval
`(startIndex, endIndex]` — the code paints when
`startIndex ≠ endIndex ∧ startIndex < index ∧ index ≤ endIndex` — and for
range `{start 1, end 3}` over 5 elements the painted indices are 2 and 3
(not 1 and 2). -/
theorem render_selectionPaints_interval :
    (∀ (o : EditorOptions) (st : DrawState) (p : IDrawOption),
      (render o st p).selectionPaints =
        (List.range (render o st p).state.positionList.length).filter fun k =>
          decide (st.range.startIndex ≠ st.range.endIndex ∧
            st.range.startIndex < k ∧ k ≤ st.range.endIndex)) ∧
    (render demoOptions demoStateFive {}).selectionPaints = [2, 3] := by
  refine ⟨?_, by with_unfolding_all decide⟩
  intro o st p
  simp only [render]
  rw [drawRows_sel, drawRows_length, List.range_eq_range']

/-- Counterexample to C1 as stated: for selection range `{start 1, end 3}`
over 5 rendered elements the selection rectangle is painted at indices 2 and
3 — index 1 is *not* painted and index 3 *is* — contradicting the claimed
half-open interval `[1, 3)` = {1, 2}. -/
theorem render_selectionPaints_demo :
    (render demoOptions demoStateFive {}).selectionPaints = [2, 3] ∧
    1 ∉ (render demoOptions demoStateFive {}).selectionPaints ∧
    3 ∈ (render demoOptions demoStateFive {}).selectionPaints := by
  with_unfolding_all decide

/-! ### History capture (C2) -/

/-- C2, amended: when history capture is enabled, the pushed history record
captures the range read at capture time (the pre-render range, which `render`
never modifies) together with a value copy (`deepClone`) of the element
sequence *as it stands at capture time* — that is, the post-layout sequence,
equal to the live element list at the end of this render, and equal to the
pre-render sequence only when layout mutated nothing. Being a value copy, the
snapshot does not alias the live mutable list. -/
theorem render_history_snapshot_postLayout (o : EditorOptions) (st : DrawState)
    (p : IDrawOption) (h : p.isSubmitHistory = true) :
    ∃ ci, (render o st p).state.historyStack =
      { startIndex := st.range.startIndex
        endIndex := st.range.endIndex
        elementList := (render o st p).state.elementList
        curIndex := ci } :: st.historyStack := by
  simp only [render, h]
  exact ⟨_, rfl⟩

/-- Witness for C2 (amended) on the shrink demo, whose layout mutates the
element list in place before the snapshot is taken. -/
theorem render_history_snapshot_postLayout_witness :
    (({} : IDrawOption).isSubmitHistory = true) ∧
    ∃ ci, (render demoOptions demoShrinkState {}).state.historyStack =
      { startIndex := demoShrinkState.range.startIndex
        endIndex := demoShrinkState.range.endIndex
        elementList := (render demoOptions demoShrinkState {}).state.elementList
        curIndex := ci } :: demoShrinkState.historyStack :=
  ⟨rfl, render_history_snapshot_postLayout demoOptions demoShrinkState {} rfl⟩

/-- Counterexample to C2 as stated: on the shrink demo the single pushed
history record's element snapshot is *not* the pre-render element sequence —
layout shrank the image in place before the snapshot was cloned — it is the
post-render live sequence. -/
theorem render_history_snapshot_not_preRender :
    ((render demoOptions demoShrinkState {}).state.historyStack.map
        fun hrec => hrec.elementList) ≠ [demoShrinkState.elementList] ∧
    ((render demoOptions demoShrinkState {}).state.historyStack.map
        fun hrec => hrec.elementList) =
      [(render demoOptions demoShrinkState {}).state.elementList] := by
  with_unfolding_all decide

end CanvasEditor
